import Mathlib

/-!
Shallow embedding of the snippet-box request pipeline: the field-error
validator, the snippet and user stores over a relational table model, the
authentication middleware and the buffered template renderer. Each Go
function is translated into an executable Lean definition; fallible calls
(transaction begin, statement exec, commit, row scan) take explicit fault
parameters standing for the errors the database driver may return.
-/

namespace SnippetBox

/-! ## Validator (src/internal/validator/validator.go)

A Go `map[string]string` is modelled as an association list whose lookup
finds the first binding; a nil map is `none`. Insertion appends, which
preserves all earlier bindings, and `lookup` never sees the appended pair
when the key is already bound.
-/

/-- Lookup in the association-list model of a Go `map[string]string`:
the first binding for the key wins. -/
def mapLookup (m : List (String × String)) (key : String) : Option String :=
  match m with
  | [] => none
  | (k, v) :: rest => if k = key then some v else mapLookup rest key

structure Validator where
  fieldErrors : Option (List (String × String))
  nonFieldErrors : List String
  deriving Repr, DecidableEq

namespace Validator

/-- The field-error map after the nil-check `if v.FieldErrors == nil`:
a nil map behaves as an empty one for reads. -/
def fieldMap (v : Validator) : List (String × String) :=
  v.fieldErrors.getD []

def lookupField (v : Validator) (key : String) : Option String :=
  mapLookup v.fieldMap key

/-- `AddFieldError`: initialize the map when nil, then store `message`
under `key` only when the key is not already bound. -/
def AddFieldError (v : Validator) (key message : String) : Validator :=
  if (mapLookup v.fieldMap key).isSome then { v with fieldErrors := some v.fieldMap }
  else { v with fieldErrors := some (v.fieldMap ++ [(key, message)]) }

/-- `CheckField`: record the message only when `ok` is false. -/
def CheckField (v : Validator) (ok : Bool) (key message : String) : Validator :=
  if !ok then v.AddFieldError key message else v

end Validator

/-- Go `utf8.RuneCountInString`: the number of Unicode code points of the
string (a Lean `Char` is one Unicode scalar value). -/
def runeCountInString (s : String) : Nat :=
  s.data.length

/-- Go `len(s)` on a string: its UTF-8 byte length. -/
def utf8ByteLen (s : String) : Nat :=
  (s.data.map Char.utf8Size).sum

/-- `MaxRunes`: true iff the code-point count is at most `maxCount`
(`maxCount` is a Go `int`, so it may be negative). -/
def MaxRunes (value : String) (maxCount : Int) : Bool :=
  decide ((runeCountInString value : Int) ≤ maxCount)

/-- `MinRunes`: true iff the code-point count is at least `minCount`. -/
def MinRunes (value : String) (minCount : Int) : Bool :=
  decide (minCount ≤ (runeCountInString value : Int))

/-! ## Claim theorems: validator -/

/-- Helper: a map lookup that succeeds still succeeds, with the same
value, after bindings are appended on the right. -/
theorem mapLookup_append_of_some {l : List (String × String)} (l2 : List (String × String))
    {k : String} {m : String}
    (h : mapLookup l k = some m) : mapLookup (l ++ l2) k = some m := by
  induction l with
  | nil => simp [mapLookup] at h
  | cons p rest ih =>
      obtain ⟨k1, m1⟩ := p
      rw [List.cons_append]
      rw [mapLookup] at h ⊢
      by_cases hk : k1 = k
      · simpa [hk] using h
      · rw [if_neg hk] at h ⊢
        exact ih h

/-- Helper: appending a binding for an unbound key makes it found. -/
theorem mapLookup_append_single {l : List (String × String)} {k m : String}
    (h : mapLookup l k = none) : mapLookup (l ++ [(k, m)]) k = some m := by
  induction l with
  | nil => simp [mapLookup]
  | cons p rest ih =>
      obtain ⟨k1, m1⟩ := p
      rw [mapLookup] at h
      rw [List.cons_append, mapLookup]
      by_cases hk : k1 = k
      · rw [if_pos hk] at h; exact absurd h (by simp)
      · rw [if_neg hk] at h ⊢
        exact ih h

/-- C4: CheckField records the message only when ok is false, and only the
first message per field is retained: a later CheckField or AddFieldError
on an already-erred key is a no-op. -/
theorem checkField_first_message_retained (v : Validator) (k m : String) :
    (Validator.CheckField v true k m = v) ∧
    (v.lookupField k = none →
      (Validator.CheckField v false k m).lookupField k = some m) ∧
    (∀ m0, v.lookupField k = some m0 →
      Validator.CheckField v false k m = v ∧ Validator.AddFieldError v k m = v) := by
  refine ⟨rfl, ?_, ?_⟩
  · intro hnone
    have hlk : mapLookup v.fieldMap k = none := hnone
    show (Validator.AddFieldError v k m).lookupField k = some m
    unfold Validator.AddFieldError
    rw [hlk]
    simp only [Option.isSome_none, Bool.false_eq_true, if_false]
    unfold Validator.lookupField Validator.fieldMap
    simp only [Option.getD_some]
    exact mapLookup_append_single hlk
  · intro m0 hsome
    have hlk : mapLookup v.fieldMap k = some m0 := hsome
    have hm : v.fieldErrors = some v.fieldMap := by
      cases hfe : v.fieldErrors with
      | none =>
          exfalso
          unfold Validator.fieldMap at hlk
          rw [hfe] at hlk
          simp [mapLookup] at hlk
      | some l => unfold Validator.fieldMap; rw [hfe]; rfl
    have hstep : Validator.AddFieldError v k m = v := by
      unfold Validator.AddFieldError
      rw [hlk]
      simp only [Option.isSome_some, if_true]
      cases v with
      | mk fe nfe => simp only at hm ⊢; rw [← hm]
    exact ⟨hstep, hstep⟩

/-- C4 witness: the second message for the title field is dropped. -/
theorem checkField_first_message_retained_witness :
    Validator.CheckField
        (Validator.CheckField ⟨none, []⟩ false "title" "first") false "title" "second"
      = Validator.CheckField ⟨none, []⟩ false "title" "first" :=
  ((checkField_first_message_retained
      (Validator.CheckField ⟨none, []⟩ false "title" "first") "title" "second").2.2
    "first" (by decide)).1

/-- C10: AddFieldError, and hence CheckField, never removes or rewrites a
recorded field error, never touches NonFieldErrors, and initializes a nil
FieldErrors map on first use. -/
theorem addFieldError_frame (v : Validator) (k m : String) :
    (∀ k0 m0, v.lookupField k0 = some m0 →
        (v.AddFieldError k m).lookupField k0 = some m0) ∧
    ((v.AddFieldError k m).nonFieldErrors = v.nonFieldErrors) ∧
    (v.fieldErrors = none → (v.AddFieldError k m).fieldErrors = some [(k, m)]) ∧
    (∀ ok k0 m0, v.lookupField k0 = some m0 →
        (Validator.CheckField v ok k m).lookupField k0 = some m0) := by
  have hpres : ∀ k0 m0, v.lookupField k0 = some m0 →
      (v.AddFieldError k m).lookupField k0 = some m0 := by
    intro k0 m0 h0
    have hlk : mapLookup v.fieldMap k0 = some m0 := h0
    unfold Validator.AddFieldError
    by_cases hk : (mapLookup v.fieldMap k).isSome
    · simp only [hk, if_true]
      unfold Validator.lookupField Validator.fieldMap
      simpa using hlk
    · simp only [hk, Bool.false_eq_true, if_false]
      unfold Validator.lookupField Validator.fieldMap
      simp only [Option.getD_some]
      exact mapLookup_append_of_some _ hlk
  refine ⟨hpres, ?_, ?_, ?_⟩
  · unfold Validator.AddFieldError
    by_cases hk : (mapLookup v.fieldMap k).isSome <;> simp [hk]
  · intro hnil
    unfold Validator.AddFieldError Validator.fieldMap
    rw [hnil]
    simp [mapLookup]
  · intro ok k0 m0 h0
    cases ok with
    | true => exact h0
    | false => exact hpres k0 m0 h0

/-- C10 witness: a recorded email error survives a later title error, the
non-field errors are untouched, and the nil map is initialized. -/
theorem addFieldError_frame_witness :
    ((Validator.AddFieldError ⟨some [("email", "bad email")], ["general"]⟩
        "title" "bad title").lookupField "email" = some "bad email") ∧
    ((Validator.AddFieldError ⟨some [("email", "bad email")], ["general"]⟩
        "title" "bad title").nonFieldErrors = ["general"]) ∧
    ((Validator.AddFieldError ⟨none, []⟩ "title" "t").fieldErrors = some [("title", "t")]) :=
  ⟨(addFieldError_frame ⟨some [("email", "bad email")], ["general"]⟩
      "title" "bad title").1 "email" "bad email" (by decide),
   (addFieldError_frame ⟨some [("email", "bad email")], ["general"]⟩
      "title" "bad title").2.1,
   (addFieldError_frame ⟨none, []⟩ "title" "t").2.2.1 rfl⟩

/-- C8: MaxRunes and MinRunes compare the Unicode code-point count with
the bound; a character counts once even when its UTF-8 encoding is longer
than one byte. -/
theorem maxRunes_minRunes_codepoints :
    (∀ s n, MaxRunes s n = true ↔ (runeCountInString s : Int) ≤ n) ∧
    (∀ s n, MinRunes s n = true ↔ n ≤ (runeCountInString s : Int)) ∧
    (∀ c : Char, runeCountInString (String.mk [c]) = 1) ∧
    (∃ s, 1 < utf8ByteLen s ∧ MaxRunes s 1 = true ∧ MinRunes s 1 = true) := by
  refine ⟨?_, ?_, ?_, ?_⟩
  · intro s n; exact decide_eq_true_iff
  · intro s n; exact decide_eq_true_iff
  · intro c; rfl
  · exact ⟨"é", by decide, by decide, by decide⟩

/-- C8 witness: a two-character string passes MaxRunes at bound 2 and
MinRunes at bound 2. -/
theorem maxRunes_minRunes_codepoints_witness :
    MaxRunes "ab" 2 = true ∧ MinRunes "ab" 2 = true :=
  ⟨(maxRunes_minRunes_codepoints.1 "ab" 2).mpr (by decide),
   (maxRunes_minRunes_codepoints.2.1 "ab" 2).mpr (by decide)⟩

/-! ## Errors (internal/models/errors.go and the sql / mysql drivers)

The sentinel errors of the models package and the driver-level errors they
are translated from. A generic driver or connection failure is `storage`.
-/

inductive Err where
  | errNoRecord
  | errInvalidCredentials
  | errDuplicateEmail
  | mysqlError (number : Nat) (message : String)
  | storage (msg : String)
  deriving Repr, DecidableEq

/-! ## Snippet store (internal/models/snippets.go)

Rows carry UTC timestamps as integers (seconds). The database state is the
snippets table plus the AUTO_INCREMENT counter. Each fallible driver call
of `Insert` and `Latest` takes an explicit fault slot: `none` means the
call succeeds, `some e` means the driver reports error `e` there.
-/

structure SnippetRow where
  id : Nat
  title : String
  content : String
  created : Int
  expires : Int
  deriving Repr, DecidableEq

structure SnippetsDB where
  rows : List SnippetRow
  nextId : Nat
  deriving Repr, DecidableEq

/-- Faults injectable into `SnippetModel.Insert`: transaction begin,
statement exec, commit, and `LastInsertId`. -/
structure InsertFaults where
  beginErr : Option String
  execErr : Option String
  commitErr : Option String
  lastInsertIdErr : Option String
  deriving Repr, DecidableEq

def secondsPerDay : Int := 86400

/-- The row the INSERT statement builds:
`VALUES(?, ?, UTC_TIMESTAMP(), DATE_ADD(UTC_TIMESTAMP(), INTERVAL ? DAY))`. -/
def insertedRow (db : SnippetsDB) (now : Int) (title content : String)
    (expires : Int) : SnippetRow :=
  ⟨db.nextId, title, content, now, now + expires * secondsPerDay⟩

/-- `SnippetModel.Insert`: Begin, exec via `tx.Stmt` inside the
transaction, Commit, then `LastInsertId`. The deferred Rollback discards
the pending row on any error before the commit; after a successful commit
the row is durable, and the id retrieval happens after that point. -/
def SnippetModel.Insert (db : SnippetsDB) (now : Int) (f : InsertFaults)
    (title content : String) (expires : Int) : SnippetsDB × Nat × Option Err :=
  match f.beginErr with
  | some e => (db, 0, some (.storage e))
  | none =>
    match f.execErr with
    | some e => (db, 0, some (.storage e))
    | none =>
      match f.commitErr with
      | some e => (db, 0, some (.storage e))
      | none =>
        let db' : SnippetsDB :=
          ⟨db.rows ++ [insertedRow db now title content expires], db.nextId + 1⟩
        match f.lastInsertIdErr with
        | some e => (db', 0, some (.storage e))
        | none => (db', db.nextId, none)

/-- Insertion step of a stable sort by descending id
(`ORDER BY id DESC`). -/
def insertByIdDesc (r : SnippetRow) : List SnippetRow → List SnippetRow
  | [] => [r]
  | x :: xs => if x.id ≤ r.id then r :: x :: xs else x :: insertByIdDesc r xs

def sortByIdDesc : List SnippetRow → List SnippetRow
  | [] => []
  | x :: xs => insertByIdDesc x (sortByIdDesc xs)

/-- Result set of the prepared `Latest` statement:
`WHERE expires > UTC_TIMESTAMP() ORDER BY id DESC LIMIT 10`. -/
def latestQuery (db : SnippetsDB) (now : Int) : List SnippetRow :=
  (sortByIdDesc (db.rows.filter (fun r => decide (now < r.expires)))).take 10

/-- Faults injectable into `SnippetModel.Latest`: the Query call, a Scan
failure at a given row index, and the final `rows.Err()` check. -/
structure LatestFaults where
  queryErr : Option String
  scanErr : Option (Nat × String)
  rowsErr : Option String
  deriving Repr, DecidableEq

def noLatestFaults : LatestFaults := ⟨none, none, none⟩

/-- After the scan loop: check `rows.Err()`, then return the accumulated
slice. The slice was initialized to the non-nil `[]*Snippet{}`, so the
success value is `some` even when empty; every error path returns the Go
nil slice `none`. -/
def latestFinish (result : List SnippetRow) (f : LatestFaults) :
    Option (List SnippetRow) × Option Err :=
  match f.rowsErr with
  | some e => (none, some (.storage e))
  | none => (some result, none)

/-- `SnippetModel.Latest`: run the query, scan each row into the slice,
check the iteration error, return slice and error. A scan fault fires
only if its index addresses an actual result row. -/
def SnippetModel.Latest (db : SnippetsDB) (now : Int) (f : LatestFaults) :
    Option (List SnippetRow) × Option Err :=
  match f.queryErr with
  | some e => (none, some (.storage e))
  | none =>
    match f.scanErr with
    | some (i, e) =>
        if i < (latestQuery db now).length then (none, some (.storage e))
        else latestFinish (latestQuery db now) f
    | none => latestFinish (latestQuery db now) f

/-! ## Claim theorems: snippet Insert (C1) -/

def c1Db : SnippetsDB := ⟨[], 1⟩

def c1IdFault : InsertFaults := ⟨none, none, none, some "driver: id unavailable"⟩

/-- C1 counterexample: when only the id retrieval fails, the error is
returned with id 0 as claimed, but the snippets table is NOT unchanged:
the commit has already happened, so the new row is in the table. -/
theorem snippetInsert_claim_counterexample :
    (SnippetModel.Insert c1Db 0 c1IdFault "t" "c" 7).2 =
      (0, some (.storage "driver: id unavailable")) ∧
    (SnippetModel.Insert c1Db 0 c1IdFault "t" "c" 7).1 ≠ c1Db := by
  constructor
  · rfl
  · intro h
    have := congrArg (fun d => d.rows.length) h
    simp [SnippetModel.Insert, c1Db, c1IdFault] at this

/-- C1 amended: a begin, exec or commit failure rolls the transaction
back, leaves the table unchanged and returns the error with id 0; the id
retrieval runs after the commit, so its failure still returns the error
with id 0 but the committed row stays in the table; on full success the
committed row is in the table and the new auto-generated id is returned
with no error. -/
theorem snippetInsert_transaction_behavior (db : SnippetsDB) (now : Int)
    (f : InsertFaults) (title content : String) (expires : Int) :
    (∀ e, f.beginErr = some e →
        SnippetModel.Insert db now f title content expires = (db, 0, some (.storage e))) ∧
    (∀ e, f.beginErr = none → f.execErr = some e →
        SnippetModel.Insert db now f title content expires = (db, 0, some (.storage e))) ∧
    (∀ e, f.beginErr = none → f.execErr = none → f.commitErr = some e →
        SnippetModel.Insert db now f title content expires = (db, 0, some (.storage e))) ∧
    (∀ e, f.beginErr = none → f.execErr = none → f.commitErr = none →
        f.lastInsertIdErr = some e →
        SnippetModel.Insert db now f title content expires =
          (⟨db.rows ++ [insertedRow db now title content expires], db.nextId + 1⟩,
           0, some (.storage e))) ∧
    (f.beginErr = none → f.execErr = none → f.commitErr = none →
        f.lastInsertIdErr = none →
        SnippetModel.Insert db now f title content expires =
          (⟨db.rows ++ [insertedRow db now title content expires], db.nextId + 1⟩,
           db.nextId, none)) := by
  refine ⟨?_, ?_, ?_, ?_, ?_⟩
  · intro e h; unfold SnippetModel.Insert; rw [h]
  · intro e h1 h2; unfold SnippetModel.Insert; rw [h1, h2]
  · intro e h1 h2 h3; unfold SnippetModel.Insert; rw [h1, h2, h3]
  · intro e h1 h2 h3 h4; unfold SnippetModel.Insert; rw [h1, h2, h3, h4]
  · intro h1 h2 h3 h4; unfold SnippetModel.Insert; rw [h1, h2, h3, h4]

/-- C1 witness: with no faults, inserting into the empty table commits
exactly the new row and returns its id 1 with no error. -/
theorem snippetInsert_transaction_behavior_witness :
    SnippetModel.Insert c1Db 0 ⟨none, none, none, none⟩ "t" "c" 7 =
      (⟨[insertedRow c1Db 0 "t" "c" 7], 2⟩, 1, none) :=
  (snippetInsert_transaction_behavior c1Db 0 ⟨none, none, none, none⟩
      "t" "c" 7).2.2.2.2 rfl rfl rfl rfl

/-! ## Claim theorems: Latest (C5, C9) -/

theorem insertByIdDesc_perm (r : SnippetRow) (l : List SnippetRow) :
    List.Perm (insertByIdDesc r l) (r :: l) := by
  induction l with
  | nil => exact List.Perm.refl _
  | cons x xs ih =>
      unfold insertByIdDesc
      by_cases h : x.id ≤ r.id
      · rw [if_pos h]
      · rw [if_neg h]
        exact (ih.cons x).trans (List.Perm.swap r x xs)

theorem sortByIdDesc_perm (l : List SnippetRow) : List.Perm (sortByIdDesc l) l := by
  induction l with
  | nil => exact List.Perm.refl _
  | cons x xs ih =>
      unfold sortByIdDesc
      exact (insertByIdDesc_perm x (sortByIdDesc xs)).trans (ih.cons x)

theorem pairwise_insertByIdDesc (r : SnippetRow) (l : List SnippetRow)
    (h : l.Pairwise (fun a b => b.id ≤ a.id)) :
    (insertByIdDesc r l).Pairwise (fun a b => b.id ≤ a.id) := by
  induction l with
  | nil => simp [insertByIdDesc]
  | cons x xs ih =>
      unfold insertByIdDesc
      rw [List.pairwise_cons] at h
      by_cases hc : x.id ≤ r.id
      · rw [if_pos hc]
        refine List.pairwise_cons.mpr ⟨?_, List.pairwise_cons.mpr h⟩
        intro y hy
        rcases List.mem_cons.mp hy with rfl | hy'
        · exact hc
        · exact le_trans (h.1 y hy') hc
      · rw [if_neg hc]
        refine List.pairwise_cons.mpr ⟨?_, ih h.2⟩
        intro y hy
        have hy' : y ∈ r :: xs := (insertByIdDesc_perm r xs).mem_iff.mp hy
        rcases List.mem_cons.mp hy' with rfl | hy''
        · omega
        · exact h.1 y hy''

theorem pairwise_sortByIdDesc (l : List SnippetRow) :
    (sortByIdDesc l).Pairwise (fun a b => b.id ≤ a.id) := by
  induction l with
  | nil => exact List.Pairwise.nil
  | cons x xs ih => exact pairwise_insertByIdDesc x (sortByIdDesc xs) ih

/-- C5: a successful Latest result has at most 10 snippets, each with
expiry in the future, pairwise in strictly descending id order. The table
hypothesis is the primary-key invariant: ids are pairwise distinct. -/
theorem latest_at_most_ten_future_desc (db : SnippetsDB) (now : Int)
    (f : LatestFaults) (s : List SnippetRow)
    (hids : db.rows.Pairwise (fun a b => a.id ≠ b.id))
    (h : SnippetModel.Latest db now f = (some s, none)) :
    s.length ≤ 10 ∧ (∀ r ∈ s, now < r.expires) ∧
      s.Pairwise (fun a b => b.id < a.id) := by
  have hs : s = latestQuery db now := by
    cases hq : f.queryErr with
    | some e => simp [SnippetModel.Latest, hq] at h
    | none =>
        cases hr : f.rowsErr with
        | some e =>
            cases hsc : f.scanErr with
            | some p =>
                by_cases hi : p.1 < (latestQuery db now).length
                · simp [SnippetModel.Latest, hq, hsc, hi] at h
                · simp [SnippetModel.Latest, latestFinish, hq, hsc, hi, hr] at h
            | none => simp [SnippetModel.Latest, latestFinish, hq, hsc, hr] at h
        | none =>
            cases hsc : f.scanErr with
            | some p =>
                by_cases hi : p.1 < (latestQuery db now).length
                · simp [SnippetModel.Latest, hq, hsc, hi] at h
                · simp [SnippetModel.Latest, latestFinish, hq, hsc, hi, hr] at h
                  exact h.symm
            | none =>
                simp [SnippetModel.Latest, latestFinish, hq, hsc, hr] at h
                exact h.symm
  subst hs
  set filt := db.rows.filter (fun r => decide (now < r.expires)) with hfilt
  have hsub : List.Sublist (latestQuery db now) (sortByIdDesc filt) :=
    List.take_sublist _ _
  refine ⟨?_, ?_, ?_⟩
  · exact List.length_take_le _ _
  · intro r hr
    have hr1 : r ∈ sortByIdDesc filt := hsub.mem hr
    have hr2 : r ∈ filt := (sortByIdDesc_perm filt).mem_iff.mp hr1
    have := List.of_mem_filter hr2
    exact of_decide_eq_true this
  · have hge : (sortByIdDesc filt).Pairwise (fun a b => b.id ≤ a.id) :=
      pairwise_sortByIdDesc filt
    have hne : (sortByIdDesc filt).Pairwise (fun a b => a.id ≠ b.id) := by
      have h1 : filt.Pairwise (fun a b => a.id ≠ b.id) := hids.filter _
      exact ((sortByIdDesc_perm filt).pairwise_iff
        (fun hab => Ne.symm hab)).mpr h1
    have hlt : (sortByIdDesc filt).Pairwise (fun a b => b.id < a.id) :=
      (hge.and hne).imp (fun hab => lt_of_le_of_ne hab.1 (Ne.symm hab.2))
    exact hlt.sublist hsub

def c5Db : SnippetsDB :=
  ⟨[⟨1, "one", "c1", 0, 100⟩, ⟨2, "two", "c2", 0, 100⟩, ⟨3, "old", "c3", 0, -5⟩], 4⟩

/-- C5 witness: on a concrete table the successful result is short,
non-expired and in strictly descending id order. -/
theorem latest_at_most_ten_future_desc_witness :
    ([⟨2, "two", "c2", 0, 100⟩, ⟨1, "one", "c1", 0, 100⟩] : List SnippetRow).length ≤ 10 ∧
    (∀ r ∈ ([⟨2, "two", "c2", 0, 100⟩, ⟨1, "one", "c1", 0, 100⟩] : List SnippetRow),
        (0 : Int) < r.expires) ∧
    ([⟨2, "two", "c2", 0, 100⟩, ⟨1, "one", "c1", 0, 100⟩] : List SnippetRow).Pairwise
        (fun a b => b.id < a.id) :=
  latest_at_most_ten_future_desc c5Db 0 noLatestFaults
    [⟨2, "two", "c2", 0, 100⟩, ⟨1, "one", "c1", 0, 100⟩] (by decide) (by rfl)

/-- C9: when the query and the final rows check succeed and no row
matches, Latest returns the empty but non-nil slice and no error. -/
theorem latest_empty_success_nonnil (db : SnippetsDB) (now : Int)
    (f : LatestFaults) (hq : f.queryErr = none) (hr : f.rowsErr = none)
    (hempty : latestQuery db now = []) :
    SnippetModel.Latest db now f = (some [], none) := by
  cases hsc : f.scanErr with
  | some p =>
      have hi : ¬ p.1 < (latestQuery db now).length := by
        rw [hempty]; simp
      simp [SnippetModel.Latest, latestFinish, hq, hsc, hi, hr, hempty]
  | none => simp [SnippetModel.Latest, latestFinish, hq, hsc, hr, hempty]

def c9Db : SnippetsDB := ⟨[⟨1, "expired", "c", 0, -100⟩], 2⟩

/-- C9 witness: a table holding only an expired snippet yields the empty
non-nil slice with no error. -/
theorem latest_empty_success_nonnil_witness :
    SnippetModel.Latest c9Db 0 noLatestFaults = (some [], none) :=
  latest_empty_success_nonnil c9Db 0 noLatestFaults rfl rfl (by decide)

/-! ## User store (internal/models/users.go)

bcrypt is modelled by its functional contract: `GenerateFromPassword`
produces a salted digest derived from the password at the given cost, and
`CompareHashAndPassword` succeeds exactly on the password the digest was
derived from. -/

structure BcryptHash where
  pw : String
  cost : Nat
  deriving Repr, DecidableEq

def generateFromPassword (password : String) (cost : Nat) : BcryptHash :=
  ⟨password, cost⟩

def compareHashAndPassword (h : BcryptHash) (password : String) : Bool :=
  h.pw = password

structure UserRow where
  id : Nat
  name : String
  email : String
  hashedPassword : BcryptHash
  created : Int
  deriving Repr, DecidableEq

structure UsersDB where
  rows : List UserRow
  nextId : Nat
  deriving Repr, DecidableEq

/-- The row returned by `SELECT id, hashed_password FROM users WHERE
email = ?` (first matching row, none on `sql.ErrNoRows`). -/
def authQuery (db : UsersDB) (email : String) : Option UserRow :=
  db.rows.find? (fun r => r.email == email)

/-- `UserModel.Authenticate`: scan id and hash by email; `sql.ErrNoRows`
becomes ErrInvalidCredentials, any other scan error passes through; then
compare the hash, a mismatch also becomes ErrInvalidCredentials. -/
def UserModel.Authenticate (db : UsersDB) (queryErr : Option String)
    (email password : String) : Nat × Option Err :=
  match queryErr with
  | some e => (0, some (.storage e))
  | none =>
    match authQuery db email with
    | none => (0, some .errInvalidCredentials)
    | some row =>
      if compareHashAndPassword row.hashedPassword password then (row.id, none)
      else (0, some .errInvalidCredentials)

/-- strings.Contains of the needle `users_uc_email`, as used in the
duplicate-key check. -/
def mentionsEmailKey (msg : String) : Bool :=
  (msg.splitOn "users_uc_email").length != 1

/-- The check `mySQLError.Number == 1062 && strings.Contains(Message,
"users_uc_email")` that selects the duplicate-email translation. -/
def errIsDuplicateEmail : Err → Bool
  | .mysqlError n msg => n == 1062 && mentionsEmailKey msg
  | _ => false

/-- Outcome of `um.InsertStmt.Exec(name, email, hashedPassword)`. The
statement is executed on the connection pool, NOT on `tx.Stmt`, so a
successful insert auto-commits immediately and is independent of the
surrounding transaction. A duplicate email violates the unique key
`users_uc_email` and yields MySQL error 1062. -/
def execInsertUser (db : UsersDB) (execFault : Option String) (now : Int)
    (name email : String) (hashed : BcryptHash) : Except Err UsersDB :=
  match execFault with
  | some e => .error (.storage e)
  | none =>
    if db.rows.any (fun r => r.email == email) then
      .error (.mysqlError 1062
        ("Duplicate entry " ++ email ++ " for key users_uc_email"))
    else
      .ok ⟨db.rows ++ [⟨db.nextId, name, email, hashed, now⟩], db.nextId + 1⟩

/-- Faults injectable into `UserModel.Insert`: transaction begin, a
non-constraint exec failure, and commit. -/
structure UserInsertFaults where
  beginErr : Option String
  execErr : Option String
  commitErr : Option String
  deriving Repr, DecidableEq

/-- `UserModel.Insert`: Begin a transaction, hash the password at cost
12, exec the pool-owned insert statement (auto-commit, outside the
transaction), translate a `users_uc_email` 1062 error into
ErrDuplicateEmail, then Commit the (empty) transaction. -/
def UserModel.Insert (db : UsersDB) (now : Int) (f : UserInsertFaults)
    (name email password : String) : UsersDB × Option Err :=
  match f.beginErr with
  | some e => (db, some (.storage e))
  | none =>
    let hashed := generateFromPassword password 12
    match execInsertUser db f.execErr now name email hashed with
    | .error err =>
        (db, some (if errIsDuplicateEmail err then .errDuplicateEmail else err))
    | .ok db' =>
        match f.commitErr with
        | some e => (db', some (.storage e))
        | none => (db', none)

/-! ## Claim theorems: Authenticate (C2) -/

/-- C2: unknown email and wrong password for a known email return the
same invalid-credentials result, a matching password returns the stored
id with no error, and any other storage error is passed through and is
distinct from the invalid-credentials sentinel. -/
theorem authenticate_invalid_credentials_uniform (db : UsersDB)
    (email password : String) :
    (authQuery db email = none →
      UserModel.Authenticate db none email password =
        (0, some .errInvalidCredentials)) ∧
    (∀ row, authQuery db email = some row →
      compareHashAndPassword row.hashedPassword password = false →
      UserModel.Authenticate db none email password =
        (0, some .errInvalidCredentials)) ∧
    (∀ db2 email2 password2 row,
      authQuery db email = none →
      authQuery db2 email2 = some row →
      compareHashAndPassword row.hashedPassword password2 = false →
      UserModel.Authenticate db none email password =
        UserModel.Authenticate db2 none email2 password2) ∧
    (∀ row, authQuery db email = some row →
      compareHashAndPassword row.hashedPassword password = true →
      UserModel.Authenticate db none email password = (row.id, none)) ∧
    (∀ e, UserModel.Authenticate db (some e) email password =
        (0, some (.storage e)) ∧ (Err.storage e ≠ .errInvalidCredentials)) := by
  have hnone : authQuery db email = none →
      UserModel.Authenticate db none email password =
        (0, some .errInvalidCredentials) := by
    intro h; unfold UserModel.Authenticate; rw [h]
  have hmis : ∀ row, authQuery db email = some row →
      compareHashAndPassword row.hashedPassword password = false →
      UserModel.Authenticate db none email password =
        (0, some .errInvalidCredentials) := by
    intro row h hcmp
    unfold UserModel.Authenticate
    rw [h]
    simp [hcmp]
  refine ⟨hnone, hmis, ?_, ?_, ?_⟩
  · intro db2 email2 password2 row h1 h2 hcmp
    rw [hnone h1]
    have hmis2 : UserModel.Authenticate db2 none email2 password2 =
        (0, some .errInvalidCredentials) := by
      unfold UserModel.Authenticate
      rw [h2]
      simp [hcmp]
    rw [hmis2]
  · intro row h hcmp
    unfold UserModel.Authenticate
    rw [h]
    simp [hcmp]
  · intro e
    exact ⟨rfl, by simp⟩

def c2Db : UsersDB := ⟨[⟨1, "alice", "alice@example.com", ⟨"secret", 12⟩, 0⟩], 2⟩

/-- C2 witness: on a concrete store, the unknown-email result equals the
wrong-password result, and the right password returns id 1. -/
theorem authenticate_invalid_credentials_uniform_witness :
    (UserModel.Authenticate c2Db none "bob@example.com" "secret" =
      UserModel.Authenticate c2Db none "alice@example.com" "wrong") ∧
    (UserModel.Authenticate c2Db none "alice@example.com" "secret" = (1, none)) :=
  ⟨(authenticate_invalid_credentials_uniform c2Db "bob@example.com" "secret").2.2.1
      c2Db "alice@example.com" "wrong" ⟨1, "alice", "alice@example.com", ⟨"secret", 12⟩, 0⟩
      (by decide) (by decide) (by decide),
   (authenticate_invalid_credentials_uniform c2Db "alice@example.com" "secret").2.2.2.1
      ⟨1, "alice", "alice@example.com", ⟨"secret", 12⟩, 0⟩ (by decide) (by decide)⟩

/-! ## Claim theorems: user Insert (C3) -/

def c3Faults : UserInsertFaults := ⟨none, none, some "commit: connection lost"⟩

/-- C3 at a failing input: the insert statement runs on the pool, not on
`tx.Stmt`, so it auto-commits outside the transaction; when the commit of
the empty transaction then fails, the error is returned but the user row
has persisted — the insert was not wrapped in the transaction. -/
theorem userInsert_commit_failure_row_persists :
    UserModel.Insert ⟨[], 1⟩ 0 c3Faults "alice" "alice@example.com" "pw" =
      (⟨[⟨1, "alice", "alice@example.com", ⟨"pw", 12⟩, 0⟩], 2⟩,
       some (.storage "commit: connection lost")) := by
  decide

/-! ## Authenticate middleware (cmd/web/middleware.go)

`UserModel.Exists` scans a single boolean. Go's `Rows.Scan` does not
assign its destination when it fails, so on a scan error the variable
`exists` keeps its zero value `false` and is returned beside the error.
The middleware reads the session user id (`GetInt` yields 0 when the key
is absent), and its serverError call is not followed by a return, so the
downstream handler still runs — without the authenticated marker. -/

def UserModel.Exists (db : UsersDB) (scanErr : Option String) (id : Nat) :
    Bool × Option Err :=
  match scanErr with
  | some e => (false, some (.storage e))
  | none => (db.rows.any (fun r => r.id == id), none)

/-- Observable outcome of one pass through the authenticate middleware. -/
structure AuthMiddlewareOutcome where
  serverErrorCalled : Bool
  downstreamRan : Bool
  isAuthenticatedCtx : Bool
  deriving Repr, DecidableEq

/-- `application.authenticate`: pass anonymous requests through, query
Exists otherwise; surface a server error on a storage error (without
returning), and inject the context marker only when `exists` is true. -/
def application.authenticate (db : UsersDB) (scanErr : Option String)
    (sessionUserID : Nat) : AuthMiddlewareOutcome :=
  if sessionUserID == 0 then ⟨false, true, false⟩
  else
    let res := UserModel.Exists db scanErr sessionUserID
    ⟨res.2.isSome, true, res.1⟩

/-- C6: for a non-zero session id, a storage error from the existence
check surfaces a server error and leaves the request unauthenticated; the
marker is injected exactly when the check succeeds and the id exists, so
the downstream handler never runs authenticated otherwise. -/
theorem authenticate_middleware_marker (db : UsersDB) (scanErr : Option String)
    (id : Nat) (hid : id ≠ 0) :
    (scanErr.isSome = true →
      (application.authenticate db scanErr id).serverErrorCalled = true ∧
      (application.authenticate db scanErr id).isAuthenticatedCtx = false) ∧
    ((application.authenticate db scanErr id).isAuthenticatedCtx = true ↔
      scanErr = none ∧ db.rows.any (fun r => r.id == id) = true) ∧
    ((application.authenticate db scanErr id).downstreamRan = true) := by
  have hbeq : (id == 0) = false := by
    cases id with
    | zero => exact absurd rfl hid
    | succ n => rfl
  unfold application.authenticate
  rw [hbeq]
  simp only [Bool.false_eq_true, if_false]
  cases scanErr with
  | some e => simp [UserModel.Exists]
  | none => simp [UserModel.Exists]

def c6Db : UsersDB := ⟨[⟨1, "alice", "alice@example.com", ⟨"secret", 12⟩, 0⟩], 2⟩

/-- C6 witness: even for an id that exists in the store, a scan error
surfaces a server error and the request stays unauthenticated. -/
theorem authenticate_middleware_marker_witness :
    (application.authenticate c6Db (some "connection reset") 1).serverErrorCalled = true ∧
    (application.authenticate c6Db (some "connection reset") 1).isAuthenticatedCtx = false :=
  (authenticate_middleware_marker c6Db (some "connection reset") 1 (by decide)).1 rfl

/-! ## Template rendering (cmd/web/helpers.go)

A compiled template set is a function from the data payload to the bytes
it writes and a success flag; on failure the bytes are what reached the
intermediate buffer before the error. The response records the status
code written (none before WriteHeader) and the body bytes. `http.Error`
writes the status text plus a newline. -/

structure Response where
  status : Option Nat
  body : String
  deriving Repr, DecidableEq

def freshResponse : Response := ⟨none, ""⟩

/-- `http.Error(w, msg, code)`. -/
def httpError (resp : Response) (msg : String) (code : Nat) : Response :=
  ⟨some code, resp.body ++ msg ++ "\n"⟩

/-- `app.serverError`: logs, then sends 500 with the generic status text. -/
def serverError (resp : Response) : Response :=
  httpError resp "Internal Server Error" 500

/-- `app.render`: look the page up in the cache (a miss is a server
error), execute the set into a fresh buffer, send a server error on a
mid-render failure (the buffer is discarded), and only on success write
the status code and the full buffered body. -/
def application.render {α : Type} (cache : List (String × (α → String × Bool)))
    (resp : Response) (status : Nat) (page : String) (data : α) : Response :=
  match cache.lookup page with
  | none => serverError resp
  | some ts =>
    let buf := ts data
    if buf.2 then ⟨some status, resp.body ++ buf.1⟩
    else serverError resp

/-- C7: a missing page name yields a 500 (not 404) with no rendered
output; a mid-render failure yields a 500 whose body is independent of
the partial buffer; on success the status and the full buffered body are
written. -/
theorem render_missing_key_buffered {α : Type}
    (cache : List (String × (α → String × Bool))) (status : Nat)
    (page : String) (data : α) :
    (cache.lookup page = none →
      application.render cache freshResponse status page data =
        ⟨some 500, "Internal Server Error\n"⟩) ∧
    (∀ ts, cache.lookup page = some ts → (ts data).2 = false →
      application.render cache freshResponse status page data =
        ⟨some 500, "Internal Server Error\n"⟩) ∧
    (∀ ts, cache.lookup page = some ts → (ts data).2 = true →
      application.render cache freshResponse status page data =
        ⟨some status, (ts data).1⟩) := by
  refine ⟨?_, ?_, ?_⟩
  · intro h
    unfold application.render
    rw [h]
    rfl
  · intro ts h hfail
    unfold application.render
    rw [h]
    simp only [hfail, Bool.false_eq_true, if_false]
    rfl
  · intro ts h hok
    unfold application.render
    rw [h]
    simp only [hok, if_true]
    rfl

/-- C7 witness: a registered page renders its full body with the given
status, and an unregistered one yields the 500 response. -/
theorem render_missing_key_buffered_witness :
    application.render [("home.html", fun _ : Unit => ("<html>home</html>", true))]
        freshResponse 200 "home.html" () = ⟨some 200, "<html>home</html>"⟩ ∧
    application.render [("home.html", fun _ : Unit => ("<html>home</html>", true))]
        freshResponse 200 "missing.html" () = ⟨some 500, "Internal Server Error\n"⟩ :=
  ⟨(render_missing_key_buffered [("home.html", fun _ : Unit => ("<html>home</html>", true))]
      200 "home.html" ()).2.2 _ rfl rfl,
   (render_missing_key_buffered [("home.html", fun _ : Unit => ("<html>home</html>", true))]
      200 "missing.html" ()).1 rfl⟩

end SnippetBox
